import Mathlib

/-!
Verification development for the `auxi` repository fragment: the ideal-gas
physical-property models (`BetaT`, `RhoT`, `RhoTP`, `RhoTPx`), the
natural-convection correlation engine (`IsothermalFlatSurface`), and the
`FinancialCalculationEngine` accounting boilerplate.

The notebooks under `src/auxi/examples` are callers of the model classes;
the class bodies themselves are not part of the source tree, so those
operations are modelled from the specification (each such definition says so
in its doc comment).  Floating-point values are modelled as rationals `ℚ`.
The C++ file `src/unnamed/part_000` is embedded directly.
-/

/-! ## Ideal-gas property models (spec §4.1) -/

/-- Error taxonomy of the property models (spec §7). -/
inductive PropertyError where
  | domainError : PropertyError
  | compositionError : PropertyError
  | unknownSpecies : PropertyError
deriving DecidableEq, Repr

/-- Universal gas constant `R` in J/mol/K, as a rational. -/
def R_gas : ℚ := 8314462618 / 1000000000

/-- Modelled from the spec: `BetaT.calculate(T)` of
`auxi.tools.materialphysicalproperties.idealgas` (implementation absent from
`src/`, only its notebook caller is present) — the ideal-gas thermal
expansion coefficient `1/T`, failing with `DomainError` when `T <= 0`. -/
def betaT (T : ℚ) : Except PropertyError ℚ :=
  if T ≤ 0 then .error .domainError else .ok (1 / T)

/-- Modelled from the spec: `RhoTP.calculate(T, P)` with configured molar
mass `M` (implementation absent from `src/`) — the ideal-gas density
`ρ = P·M/(R·T)`, failing with `DomainError` when `T <= 0` or `P < 0`. -/
def rhoTP (M T P : ℚ) : Except PropertyError ℚ :=
  if T ≤ 0 then .error .domainError
  else if P < 0 then .error .domainError
  else .ok (P * M / (R_gas * T))

/-- Modelled from the spec: `RhoT.calculate(T)` with configured pressure `P`
and molar mass `M` (implementation absent from `src/`) — same formula with
the configured pressure. -/
def rhoT (M P T : ℚ) : Except PropertyError ℚ :=
  rhoTP M T P

/-- Sum of the mole fractions of a composition mapping. -/
def moleFractionSum (x : List (String × ℚ)) : ℚ :=
  (x.map Prod.snd).sum

/-- Mole-fraction-weighted mixture molar mass, with per-species molar masses
looked up through the external collaborator `mm`. -/
def mixtureMolarMass (mm : String → ℚ) (x : List (String × ℚ)) : ℚ :=
  (x.map (fun p => p.2 * mm p.1)).sum

/-- Modelled from the spec: `RhoTPx.calculate(T, P, x)` (implementation
absent from `src/`) — checks the mole fractions sum to 1 within tolerance
`1e-6` (else `CompositionError`), computes the mixture molar mass as the
mole-fraction-weighted sum of per-species molar masses, then applies the
`RhoTP` density formula. -/
def rhoTPx (mm : String → ℚ) (T P : ℚ) (x : List (String × ℚ)) :
    Except PropertyError ℚ :=
  if 1 / 1000000 < |moleFractionSum x - 1| then .error .compositionError
  else rhoTP (mixtureMolarMass mm x) T P

/-! ## FinancialCalculationEngine (src/unnamed/part_000) -/

/-- State of a `FinancialCalculationEngine`: the name inherited from its
named-object base class and `m_generalLedgerStructureList`, a
`std::vector<GeneralLedgerStructure*>` whose pointers are modelled as
natural-number addresses. -/
structure FinancialCalculationEngine where
  name : String
  m_generalLedgerStructureList : List Nat
deriving DecidableEq, Repr

/-- The `operator==` from `src/unnamed/part_000`:
`1 == 1 && lhs.m_generalLedgerStructureList == rhs.m_generalLedgerStructureList`. -/
def engineEqOp (lhs rhs : FinancialCalculationEngine) : Bool :=
  ((1 : Nat) == 1)
    && (lhs.m_generalLedgerStructureList == rhs.m_generalLedgerStructureList)

/-- The `operator!=` from `src/unnamed/part_000`:
`1 != 1 || lhs.m_generalLedgerStructureList != rhs.m_generalLedgerStructureList`. -/
def engineNeqOp (lhs rhs : FinancialCalculationEngine) : Bool :=
  ((1 : Nat) != 1)
    || (lhs.m_generalLedgerStructureList != rhs.m_generalLedgerStructureList)

/-- Modelled from the spec: `GetName()` of the named-object base class is not
in `src/`; it returns the object's name. -/
def engineGetName (obj : FinancialCalculationEngine) : String :=
  obj.name

/-- The `operator<<` from `src/unnamed/part_000`: writes `obj.GetName()` to the
stream and nothing else; the written text is the returned string. -/
def engineOstream (obj : FinancialCalculationEngine) : String :=
  engineGetName obj

/-! ## Natural-convection correlation engine (spec §4.2)

The `IsothermalFlatSurface` class body is absent from `src/` (only its
notebook caller is present), so the whole engine is modelled from the
specification.  The spec leaves the concrete region table, the correlation
formulas, their Ra→0 conduction limits and the boundary blending weight
function open (its §9 records them as data to be taken from the
empirical-correlation literature), so those appear here as parameters of
the model rather than fixed values. -/

/-- Modelled from the spec: the `FluidPropertySource` capability — density,
viscosity, thermal conductivity, specific heat and thermal-expansion
coefficient, each as a function of temperature. -/
structure FluidPropertySource where
  density : ℚ → ℚ
  viscosity : ℚ → ℚ
  conductivity : ℚ → ℚ
  specific_heat : ℚ → ℚ
  thermal_expansion : ℚ → ℚ

/-- Modelled from the spec: a `CorrelationRegion` — a named validity range
in `(Ra, θ)` together with the local and average correlation functions
`(Ra, Pr, θ) → Nu` and their explicit Ra→0 pure-conduction limits. -/
structure CorrelationRegion where
  name : String
  raMin : ℚ
  raMax : ℚ
  thetaMin : ℚ
  thetaMax : ℚ
  nu_x : ℚ → ℚ → ℚ → ℚ
  nu_L : ℚ → ℚ → ℚ → ℚ
  nu0_x : ℚ
  nu0_L : ℚ

/-- Error taxonomy of the convection engine (spec §7): `DomainError` for
non-physical numeric input, `OutOfRangeError` naming the offending
`(Ra, θ)` and the nearest valid region bounds
`(raMin, raMax, thetaMin, thetaMax)`. -/
inductive EngineError where
  | domainError : String → EngineError
  | outOfRange : ℚ → ℚ → ℚ × ℚ × ℚ × ℚ → EngineError
deriving DecidableEq, Repr

/-- The bounds record an `OutOfRangeError` reports for a region. -/
def boundsOf (r : CorrelationRegion) : ℚ × ℚ × ℚ × ℚ :=
  (r.raMin, r.raMax, r.thetaMin, r.thetaMax)

/-- Modelled from the spec: the engine configuration — fluid source
reference, `allow_extrapolation`, optional `forced_region`, the declared
region table, and the (literature-supplied, spec-open) blending weight
used at region boundaries. -/
structure IsothermalFlatSurface where
  fluid : FluidPropertySource
  allow_extrapolation : Bool := true
  forced_region : Option CorrelationRegion := none
  regions : List CorrelationRegion
  blendWeight : ℚ → CorrelationRegion → CorrelationRegion → ℚ

/-- Gravitational acceleration, 9.81 m/s². -/
def g_accel : ℚ := 981 / 100

/-- Kinematic viscosity `ν = μ/ρ` from the fluid source at temperature `T`. -/
def kinematicViscosity (f : FluidPropertySource) (T : ℚ) : ℚ :=
  f.viscosity T / f.density T

/-- Thermal diffusivity `α = k/(ρ·cp)` from the fluid source at `T`. -/
def thermalDiffusivity (f : FluidPropertySource) (T : ℚ) : ℚ :=
  f.conductivity T / (f.density T * f.specific_heat T)

/-- Modelled from the spec: the Rayleigh number
`Ra = g·β·|T_surface - T_fluid|·L³ / (ν·α)`, all fluid properties
evaluated at the fluid temperature. -/
def rayleigh (f : FluidPropertySource) (L Ts Tf : ℚ) : ℚ :=
  g_accel * f.thermal_expansion Tf * |Ts - Tf| * L ^ 3
    / (kinematicViscosity f Tf * thermalDiffusivity f Tf)

/-- Modelled from the spec: the Prandtl number `Pr = ν/α`. -/
def prandtl (f : FluidPropertySource) (Tf : ℚ) : ℚ :=
  kinematicViscosity f Tf / thermalDiffusivity f Tf

/-- Whether a region's `(Ra-range, θ-range)` contains the operating point. -/
def containsPoint (r : CorrelationRegion) (Ra th : ℚ) : Bool :=
  decide (r.raMin ≤ Ra) && decide (Ra ≤ r.raMax)
    && decide (r.thetaMin ≤ th) && decide (th ≤ r.thetaMax)

/-- The declared regions whose ranges contain the operating point. -/
def containing (rs : List CorrelationRegion) (Ra th : ℚ) :
    List CorrelationRegion :=
  rs.filter (fun r => containsPoint r Ra th)

/-- Distance from an operating point to a region's validity rectangle
(zero inside it), used to pick the nearest region for extrapolation. -/
def distTo (r : CorrelationRegion) (Ra th : ℚ) : ℚ :=
  max (r.raMin - Ra) (max (Ra - r.raMax) 0)
    + max (r.thetaMin - th) (max (th - r.thetaMax) 0)

/-- The declared region nearest to the operating point (`none` only for an
empty region table). -/
def nearest : List CorrelationRegion → ℚ → ℚ → Option CorrelationRegion
  | [], _, _ => none
  | r :: rest, Ra, th =>
    match nearest rest Ra th with
    | none => some r
    | some r2 => if distTo r Ra th ≤ distTo r2 Ra th then some r else some r2

/-- Evaluate a region's correlation, using its explicit Ra→0
pure-conduction limit when `Ra = 0` (spec §4.2 failure semantics). -/
def evalRegion (pick : CorrelationRegion → ℚ → ℚ → ℚ → ℚ)
    (pick0 : CorrelationRegion → ℚ) (r : CorrelationRegion)
    (Ra Pr th : ℚ) : ℚ :=
  if Ra = 0 then pick0 r else pick r Ra Pr th

/-- Blended Nusselt number at a boundary overlap: convex combination of the
two overlapping regions' predictions with the configured weight. -/
def blendNu (e : IsothermalFlatSurface)
    (pick : CorrelationRegion → ℚ → ℚ → ℚ → ℚ)
    (pick0 : CorrelationRegion → ℚ) (r1 r2 : CorrelationRegion)
    (Ra Pr th : ℚ) : ℚ :=
  e.blendWeight Ra r1 r2 * evalRegion pick pick0 r1 Ra Pr th
    + (1 - e.blendWeight Ra r1 r2) * evalRegion pick pick0 r2 Ra Pr th

/-- Modelled from the spec: steps 2–4 of the algorithm — forced-region
override, Ra→0 conduction limit, classification of `(Ra, θ)` against the
region table with boundary blending, gap extrapolation or
`OutOfRangeError`.  The second component flags an extrapolated result. -/
def classifyEval (pick : CorrelationRegion → ℚ → ℚ → ℚ → ℚ)
    (pick0 : CorrelationRegion → ℚ) (e : IsothermalFlatSurface)
    (Ra Pr th : ℚ) : Except EngineError (ℚ × Bool) :=
  match e.forced_region with
  | some r => .ok (evalRegion pick pick0 r Ra Pr th, false)
  | none =>
    if Ra = 0 then
      match nearest e.regions Ra th with
      | some r => .ok (pick0 r, false)
      | none => .error (.outOfRange Ra th (0, 0, 0, 0))
    else
      match containing e.regions Ra th with
      | [] =>
        match nearest e.regions Ra th with
        | some r =>
          if e.allow_extrapolation then
            .ok (evalRegion pick pick0 r Ra Pr th, true)
          else .error (.outOfRange Ra th (boundsOf r))
        | none => .error (.outOfRange Ra th (0, 0, 0, 0))
      | [r] => .ok (evalRegion pick pick0 r Ra Pr th, false)
      | r1 :: r2 :: _ => .ok (blendNu e pick pick0 r1 r2 Ra Pr th, false)

/-- Modelled from the spec: the shared Nusselt pipeline — `DomainError` for
`L ≤ 0`, then compute `(Ra, Pr)` and classify-and-evaluate. -/
def nusseltWith (pick : CorrelationRegion → ℚ → ℚ → ℚ → ℚ)
    (pick0 : CorrelationRegion → ℚ) (e : IsothermalFlatSurface)
    (L th Ts Tf : ℚ) : Except EngineError (ℚ × Bool) :=
  if L ≤ 0 then .error (.domainError "L")
  else classifyEval pick pick0 e (rayleigh e.fluid L Ts Tf) (prandtl e.fluid Tf) th

/-- Local Nusselt number operation `Nu_x`: local Nusselt number. -/
def Nu_x (e : IsothermalFlatSurface) (L th Ts Tf : ℚ) :
    Except EngineError (ℚ × Bool) :=
  nusseltWith (fun r => r.nu_x) (fun r => r.nu0_x) e L th Ts Tf

/-- Average Nusselt number operation `Nu_L`: average Nusselt number. -/
def Nu_L (e : IsothermalFlatSurface) (L th Ts Tf : ℚ) :
    Except EngineError (ℚ × Bool) :=
  nusseltWith (fun r => r.nu_L) (fun r => r.nu0_L) e L th Ts Tf

/-- Modelled from the spec: step 5 run as its own pipeline — the
coefficient variant scales each successful Nusselt value by `k/L` with the
conductivity evaluated at the fluid temperature. -/
def coefficientWith (pick : CorrelationRegion → ℚ → ℚ → ℚ → ℚ)
    (pick0 : CorrelationRegion → ℚ) (e : IsothermalFlatSurface)
    (L th Ts Tf : ℚ) : Except EngineError (ℚ × Bool) :=
  if L ≤ 0 then .error (.domainError "L")
  else
    match classifyEval pick pick0 e (rayleigh e.fluid L Ts Tf)
        (prandtl e.fluid Tf) th with
    | .ok (nu, fl) => .ok (nu * e.fluid.conductivity Tf / L, fl)
    | .error err => .error err

/-- Local heat transfer coefficient operation `h_x`: local heat transfer coefficient. -/
def h_x (e : IsothermalFlatSurface) (L th Ts Tf : ℚ) :
    Except EngineError (ℚ × Bool) :=
  coefficientWith (fun r => r.nu_x) (fun r => r.nu0_x) e L th Ts Tf

/-- Average heat transfer coefficient operation `h_L`: average heat transfer coefficient. -/
def h_L (e : IsothermalFlatSurface) (L th Ts Tf : ℚ) :
    Except EngineError (ℚ × Bool) :=
  coefficientWith (fun r => r.nu_L) (fun r => r.nu0_L) e L th Ts Tf

/-! ## Theorems: ideal-gas claims -/

/-- C7: for every temperature `T > 0`, `BetaT` returns exactly `1/T`, and
for every `T ≤ 0` it fails with `DomainError`. -/
theorem betaT_spec (T : ℚ) :
    (0 < T → betaT T = .ok (1 / T)) ∧ (T ≤ 0 → betaT T = .error .domainError) := by
  constructor
  · intro hT
    simp [betaT, not_le.mpr hT]
  · intro hT
    simp [betaT, hT]

/-- Witness for C7 at `T = 2` and `T = -1`. -/
theorem betaT_spec_witness :
    betaT 2 = .ok (1 / 2) ∧ betaT (-1) = .error .domainError :=
  ⟨(betaT_spec 2).1 (by norm_num), (betaT_spec (-1)).2 (by norm_num)⟩

/-- C8: `RhoTPx` raises `CompositionError` whenever the mole fractions do
not sum to 1 within tolerance `1e-6`; whenever they do (and `T > 0`,
`P ≥ 0`) it returns the ideal-gas density `P·M/(R·T)` with `M` the
mole-fraction-weighted mixture molar mass; and for `x = {H2: 0.5, Ar: 0.5}`
the mixture molar mass is `0.5·M(H2) + 0.5·M(Ar)`. -/
theorem rhoTPx_spec (mm : String → ℚ) (T P : ℚ) (x : List (String × ℚ)) :
    (1 / 1000000 < |moleFractionSum x - 1| →
      rhoTPx mm T P x = .error .compositionError) ∧
    (|moleFractionSum x - 1| ≤ 1 / 1000000 → 0 < T → 0 ≤ P →
      rhoTPx mm T P x = .ok (P * mixtureMolarMass mm x / (R_gas * T))) ∧
    mixtureMolarMass mm [("H2", 1 / 2), ("Ar", 1 / 2)]
      = (1 / 2) * mm "H2" + (1 / 2) * mm "Ar" := by
  refine ⟨?_, ?_, ?_⟩
  · intro h
    simp only [rhoTPx]
    rw [if_pos h]
  · intro h hT hP
    simp only [rhoTPx, rhoTP]
    rw [if_neg (not_lt.mpr h), if_neg (not_le.mpr hT), if_neg (not_lt.mpr hP)]
  · simp [mixtureMolarMass]

/-- Witness for C8: mole fractions summing to `1.02` raise
`CompositionError`; the H2/Ar half-half mixture at `T = 700`, `P = 101000`
with molar masses `M(H2) = 2/1000`, `M(Ar) = 40/1000` returns the ideal-gas
density with the averaged molar mass. -/
theorem rhoTPx_spec_witness :
    rhoTPx (fun _ => 1) 700 101000 [("H2", 51 / 100), ("Ar", 51 / 100)]
      = .error .compositionError ∧
    rhoTPx (fun s => if s = "H2" then 2 / 1000 else 40 / 1000) 700 101000
        [("H2", 1 / 2), ("Ar", 1 / 2)]
      = .ok (101000 * mixtureMolarMass
          (fun s => if s = "H2" then 2 / 1000 else 40 / 1000)
          [("H2", 1 / 2), ("Ar", 1 / 2)] / (R_gas * 700)) := by
  constructor
  · exact (rhoTPx_spec (fun _ => 1) 700 101000 _).1 (by
      have hs : moleFractionSum [("H2", 51 / 100), ("Ar", 51 / 100)] - 1
          = 1 / 50 := by
        simp [moleFractionSum]
        norm_num
      rw [hs, abs_of_nonneg (by norm_num : (0 : ℚ) ≤ 1 / 50)]
      norm_num)
  · exact (rhoTPx_spec _ 700 101000 _).2.1 (by
      have hs : moleFractionSum [("H2", 1 / 2), ("Ar", 1 / 2)] - 1 = 0 := by
        simp [moleFractionSum]
        norm_num
      rw [hs, abs_zero]
      norm_num) (by norm_num) (by norm_num)

/-! ## Helper lemmas and theorems for the convection engine -/

theorem nearest_mem {rs : List CorrelationRegion} {Ra th : ℚ}
    {r : CorrelationRegion} (h : nearest rs Ra th = some r) : r ∈ rs := by
  induction rs with
  | nil => simp [nearest] at h
  | cons a rest ih =>
    simp only [nearest] at h
    cases hn : nearest rest Ra th with
    | none =>
      simp only [hn, Option.some.injEq] at h
      subst h
      exact List.mem_cons_self a rest
    | some b =>
      simp only [hn] at h
      by_cases hd : distTo a Ra th ≤ distTo b Ra th
      · rw [if_pos hd] at h
        simp only [Option.some.injEq] at h
        subst h
        exact List.mem_cons_self a rest
      · rw [if_neg hd] at h
        simp only [Option.some.injEq] at h
        subst h
        exact List.mem_cons_of_mem a (ih hn)

theorem nearest_some (rs : List CorrelationRegion) (Ra th : ℚ)
    (h : rs ≠ []) : ∃ r, nearest rs Ra th = some r := by
  cases rs with
  | nil => exact absurd rfl h
  | cons a rest =>
    simp only [nearest]
    cases hn : nearest rest Ra th with
    | none => exact ⟨a, rfl⟩
    | some b =>
      by_cases hd : distTo a Ra th ≤ distTo b Ra th
      · exact ⟨a, if_pos hd⟩
      · exact ⟨b, if_neg hd⟩

theorem classifyEval_total (pick : CorrelationRegion → ℚ → ℚ → ℚ → ℚ)
    (pick0 : CorrelationRegion → ℚ) (e : IsothermalFlatSurface)
    (Ra Pr th : ℚ) (hex : e.allow_extrapolation = true)
    (hne : e.regions ≠ []) :
    ∃ v, classifyEval pick pick0 e Ra Pr th = .ok v := by
  simp only [classifyEval]
  cases hf : e.forced_region with
  | some r => exact ⟨_, rfl⟩
  | none =>
    by_cases h0 : Ra = 0
    · rw [if_pos h0]
      obtain ⟨r, hr⟩ := nearest_some e.regions Ra th hne
      rw [hr]
      exact ⟨_, rfl⟩
    · rw [if_neg h0]
      cases hc : containing e.regions Ra th with
      | nil =>
        obtain ⟨r, hr⟩ := nearest_some e.regions Ra th hne
        rw [hr, hex]
        exact ⟨_, rfl⟩
      | cons r1 rest =>
        cases rest with
        | nil => exact ⟨_, rfl⟩
        | cons r2 rest2 => exact ⟨_, rfl⟩

theorem classifyEval_ne_domain (pick : CorrelationRegion → ℚ → ℚ → ℚ → ℚ)
    (pick0 : CorrelationRegion → ℚ) (e : IsothermalFlatSurface)
    (Ra Pr th : ℚ) (s : String) :
    classifyEval pick pick0 e Ra Pr th ≠ .error (.domainError s) := by
  simp only [classifyEval]
  cases hf : e.forced_region with
  | some r => simp
  | none =>
    by_cases h0 : Ra = 0
    · rw [if_pos h0]
      cases nearest e.regions Ra th <;> simp
    · rw [if_neg h0]
      cases hc : containing e.regions Ra th with
      | nil =>
        cases nearest e.regions Ra th with
        | none => simp
        | some r =>
          by_cases hex : e.allow_extrapolation
          · simp [hex]
          · simp [hex]
      | cons r1 rest =>
        cases rest <;> simp

theorem classifyEval_forced (pick : CorrelationRegion → ℚ → ℚ → ℚ → ℚ)
    (pick0 : CorrelationRegion → ℚ) (e : IsothermalFlatSurface)
    (r : CorrelationRegion) (Ra Pr th : ℚ)
    (hf : e.forced_region = some r) :
    classifyEval pick pick0 e Ra Pr th
      = .ok (evalRegion pick pick0 r Ra Pr th, false) := by
  simp only [classifyEval, hf]

/-- C1: with `allow_extrapolation = true` and a nonempty region table, the
Nusselt operations are total over `L > 0` and `θ ∈ [-90, 90]`: both
`Nu_x` and `Nu_L` return a value and never fail, and an operating point in
a gap covered by no declared region is handled by evaluating the nearest
region's correlation with the result flagged extrapolated, not by an
error. -/
theorem nusselt_total (e : IsothermalFlatSurface) (L th Ts Tf : ℚ)
    (hex : e.allow_extrapolation = true) (hf : e.forced_region = none)
    (hne : e.regions ≠ []) (hL : 0 < L) (hRa : 0 ≤ rayleigh e.fluid L Ts Tf)
    (hth1 : -90 ≤ th) (hth2 : th ≤ 90) :
    (∃ v, Nu_x e L th Ts Tf = .ok v) ∧ (∃ v, Nu_L e L th Ts Tf = .ok v) ∧
    (containing e.regions (rayleigh e.fluid L Ts Tf) th = [] →
      rayleigh e.fluid L Ts Tf ≠ 0 →
      ∃ r, nearest e.regions (rayleigh e.fluid L Ts Tf) th = some r ∧
        Nu_x e L th Ts Tf
          = .ok (evalRegion (fun r2 => r2.nu_x) (fun r2 => r2.nu0_x) r
              (rayleigh e.fluid L Ts Tf) (prandtl e.fluid Tf) th, true)) := by
  refine ⟨?_, ?_, ?_⟩
  · obtain ⟨v, hv⟩ := classifyEval_total (fun r => r.nu_x) (fun r => r.nu0_x)
      e (rayleigh e.fluid L Ts Tf) (prandtl e.fluid Tf) th hex hne
    refine ⟨v, ?_⟩
    simp only [Nu_x, nusseltWith, if_neg (not_le.mpr hL)]
    exact hv
  · obtain ⟨v, hv⟩ := classifyEval_total (fun r => r.nu_L) (fun r => r.nu0_L)
      e (rayleigh e.fluid L Ts Tf) (prandtl e.fluid Tf) th hex hne
    refine ⟨v, ?_⟩
    simp only [Nu_L, nusseltWith, if_neg (not_le.mpr hL)]
    exact hv
  · intro hgap h0
    obtain ⟨r, hr⟩ := nearest_some e.regions (rayleigh e.fluid L Ts Tf) th hne
    refine ⟨r, hr, ?_⟩
    simp only [Nu_x, nusseltWith, if_neg (not_le.mpr hL), classifyEval, hf,
      if_neg h0, hgap, hr, hex, if_true]

/-- C2: with `forced_region` set, the forced region's correlation is the
one applied for every input: classification is skipped (the region table is
irrelevant) and the `allow_extrapolation` flag has no effect. -/
theorem forced_region_spec (e : IsothermalFlatSurface)
    (r : CorrelationRegion) (L th Ts Tf : ℚ)
    (hf : e.forced_region = some r) (hL : 0 < L) :
    Nu_x e L th Ts Tf
      = .ok (evalRegion (fun r2 => r2.nu_x) (fun r2 => r2.nu0_x) r
          (rayleigh e.fluid L Ts Tf) (prandtl e.fluid Tf) th, false) ∧
    Nu_L e L th Ts Tf
      = .ok (evalRegion (fun r2 => r2.nu_L) (fun r2 => r2.nu0_L) r
          (rayleigh e.fluid L Ts Tf) (prandtl e.fluid Tf) th, false) ∧
    (∀ b : Bool,
      Nu_x { e with allow_extrapolation := b } L th Ts Tf
          = Nu_x e L th Ts Tf ∧
      Nu_L { e with allow_extrapolation := b } L th Ts Tf
          = Nu_L e L th Ts Tf) ∧
    (∀ rs : List CorrelationRegion,
      Nu_x { e with regions := rs } L th Ts Tf = Nu_x e L th Ts Tf ∧
      Nu_L { e with regions := rs } L th Ts Tf = Nu_L e L th Ts Tf) := by
  have hx : Nu_x e L th Ts Tf
      = .ok (evalRegion (fun r2 => r2.nu_x) (fun r2 => r2.nu0_x) r
          (rayleigh e.fluid L Ts Tf) (prandtl e.fluid Tf) th, false) := by
    simp only [Nu_x, nusseltWith, if_neg (not_le.mpr hL)]
    exact classifyEval_forced _ _ e r _ _ th hf
  have hl : Nu_L e L th Ts Tf
      = .ok (evalRegion (fun r2 => r2.nu_L) (fun r2 => r2.nu0_L) r
          (rayleigh e.fluid L Ts Tf) (prandtl e.fluid Tf) th, false) := by
    simp only [Nu_L, nusseltWith, if_neg (not_le.mpr hL)]
    exact classifyEval_forced _ _ e r _ _ th hf
  refine ⟨hx, hl, ?_, ?_⟩
  · intro b
    constructor
    · rw [hx]
      simp only [Nu_x, nusseltWith, if_neg (not_le.mpr hL)]
      exact classifyEval_forced _ _ _ r _ _ th hf
    · rw [hl]
      simp only [Nu_L, nusseltWith, if_neg (not_le.mpr hL)]
      exact classifyEval_forced _ _ _ r _ _ th hf
  · intro rs
    constructor
    · rw [hx]
      simp only [Nu_x, nusseltWith, if_neg (not_le.mpr hL)]
      exact classifyEval_forced _ _ _ r _ _ th hf
    · rw [hl]
      simp only [Nu_L, nusseltWith, if_neg (not_le.mpr hL)]
      exact classifyEval_forced _ _ _ r _ _ th hf

/-- C3: with `allow_extrapolation = false` and an operating point outside
every declared region, the engine fails with `OutOfRangeError` naming the
offending `(Ra, θ)` and the nearest region's bounds; `DomainError` (the
only other error kind) is never gated by the flag; and every call either
fully succeeds with a value or fully fails with an error. -/
theorem out_of_range_spec (e : IsothermalFlatSurface) (L th Ts Tf : ℚ)
    (hex : e.allow_extrapolation = false) (hf : e.forced_region = none)
    (hL : 0 < L) (hRa : rayleigh e.fluid L Ts Tf ≠ 0)
    (hne : e.regions ≠ [])
    (hgap : containing e.regions (rayleigh e.fluid L Ts Tf) th = []) :
    (∃ r, nearest e.regions (rayleigh e.fluid L Ts Tf) th = some r ∧
      r ∈ e.regions ∧
      Nu_x e L th Ts Tf
        = .error (.outOfRange (rayleigh e.fluid L Ts Tf) th (boundsOf r)) ∧
      Nu_L e L th Ts Tf
        = .error (.outOfRange (rayleigh e.fluid L Ts Tf) th (boundsOf r))) ∧
    (∀ (e2 : IsothermalFlatSurface) (b : Bool) (L2 th2 Ts2 Tf2 : ℚ)
        (s : String),
      Nu_x e2 L2 th2 Ts2 Tf2 = .error (.domainError s) →
      Nu_x { e2 with allow_extrapolation := b } L2 th2 Ts2 Tf2
        = .error (.domainError s)) ∧
    (∀ (e2 : IsothermalFlatSurface) (L2 th2 Ts2 Tf2 : ℚ),
      (∃ v, Nu_x e2 L2 th2 Ts2 Tf2 = .ok v) ∨
      (∃ err, Nu_x e2 L2 th2 Ts2 Tf2 = .error err)) := by
  refine ⟨?_, ?_, ?_⟩
  · obtain ⟨r, hr⟩ := nearest_some e.regions (rayleigh e.fluid L Ts Tf) th hne
    refine ⟨r, hr, nearest_mem hr, ?_, ?_⟩
    · simp only [Nu_x, nusseltWith, if_neg (not_le.mpr hL), classifyEval, hf,
        if_neg hRa, hgap, hr]
      rw [if_neg (fun hcon => Bool.false_ne_true (hex.symm.trans hcon))]
    · simp only [Nu_L, nusseltWith, if_neg (not_le.mpr hL), classifyEval, hf,
        if_neg hRa, hgap, hr]
      rw [if_neg (fun hcon => Bool.false_ne_true (hex.symm.trans hcon))]
  · intro e2 b L2 th2 Ts2 Tf2 s hs
    by_cases hL2 : L2 ≤ 0
    · simp only [Nu_x, nusseltWith, if_pos hL2] at hs ⊢
      exact hs
    · exfalso
      simp only [Nu_x, nusseltWith, if_neg hL2] at hs
      exact classifyEval_ne_domain _ _ e2 _ _ th2 s hs
  · intro e2 L2 th2 Ts2 Tf2
    cases h : Nu_x e2 L2 th2 Ts2 Tf2 with
    | ok v => exact Or.inl ⟨v, rfl⟩
    | error err => exact Or.inr ⟨err, rfl⟩

/-- C5: with `T_surface = T_fluid` and `L > 0`, the Rayleigh number is `0`,
no error is raised, and the returned Nusselt number is the applied region's
explicit pure-conduction (Ra→0) limit — for the forced region when one is
set, and for a declared region of the table otherwise. -/
theorem zero_dT_spec (e : IsothermalFlatSurface) (L th T : ℚ)
    (hL : 0 < L) (hne : e.regions ≠ []) :
    rayleigh e.fluid L T T = 0 ∧
    (∀ r, e.forced_region = some r →
      Nu_x e L th T T = .ok (r.nu0_x, false) ∧
      Nu_L e L th T T = .ok (r.nu0_L, false)) ∧
    (e.forced_region = none →
      ∃ r, r ∈ e.regions ∧ Nu_x e L th T T = .ok (r.nu0_x, false) ∧
        Nu_L e L th T T = .ok (r.nu0_L, false)) := by
  have hRa0 : rayleigh e.fluid L T T = 0 := by
    simp [rayleigh]
  refine ⟨hRa0, ?_, ?_⟩
  · intro r hf
    constructor
    · simp only [Nu_x, nusseltWith, if_neg (not_le.mpr hL),
        classifyEval_forced _ _ e r _ _ th hf, evalRegion]
      rw [if_pos hRa0]
    · simp only [Nu_L, nusseltWith, if_neg (not_le.mpr hL),
        classifyEval_forced _ _ e r _ _ th hf, evalRegion]
      rw [if_pos hRa0]
  · intro hf
    obtain ⟨r, hr⟩ := nearest_some e.regions (rayleigh e.fluid L T T) th hne
    rw [hRa0] at hr
    refine ⟨r, nearest_mem hr, ?_, ?_⟩
    · simp only [Nu_x, nusseltWith, if_neg (not_le.mpr hL), classifyEval, hf,
        hRa0, if_true, hr]
    · simp only [Nu_L, nusseltWith, if_neg (not_le.mpr hL), classifyEval, hf,
        hRa0, if_true, hr]

/-- C6: for every valid input, `h_x` is `Nu_x · k / L` and `h_L` is
`Nu_L · k / L`, with the conductivity `k` evaluated at the fluid
temperature; errors propagate unchanged. -/
theorem coefficient_spec (e : IsothermalFlatSurface) (L th Ts Tf : ℚ)
    (hL : 0 < L) (hth1 : -90 ≤ th) (hth2 : th ≤ 90) :
    (∀ nu fl, Nu_x e L th Ts Tf = .ok (nu, fl) →
      h_x e L th Ts Tf = .ok (nu * e.fluid.conductivity Tf / L, fl)) ∧
    (∀ nu fl, Nu_L e L th Ts Tf = .ok (nu, fl) →
      h_L e L th Ts Tf = .ok (nu * e.fluid.conductivity Tf / L, fl)) ∧
    (∀ err, Nu_x e L th Ts Tf = .error err →
      h_x e L th Ts Tf = .error err) ∧
    (∀ err, Nu_L e L th Ts Tf = .error err →
      h_L e L th Ts Tf = .error err) := by
  refine ⟨?_, ?_, ?_, ?_⟩
  · intro nu fl hs
    simp only [Nu_x, nusseltWith, if_neg (not_le.mpr hL)] at hs
    simp only [h_x, coefficientWith, if_neg (not_le.mpr hL), hs]
  · intro nu fl hs
    simp only [Nu_L, nusseltWith, if_neg (not_le.mpr hL)] at hs
    simp only [h_L, coefficientWith, if_neg (not_le.mpr hL), hs]
  · intro err hs
    simp only [Nu_x, nusseltWith, if_neg (not_le.mpr hL)] at hs
    simp only [h_x, coefficientWith, if_neg (not_le.mpr hL), hs]
  · intro err hs
    simp only [Nu_L, nusseltWith, if_neg (not_le.mpr hL)] at hs
    simp only [h_L, coefficientWith, if_neg (not_le.mpr hL), hs]

/-! ## Theorems: FinancialCalculationEngine claims -/

/-- C9: `operator!=` is exactly the negation of `operator==`, and both
reduce to comparison of `m_generalLedgerStructureList` alone (the constant
conjunct `1 == 1` is true, the constant disjunct `1 != 1` is false). -/
theorem engineNeqOp_not_engineEqOp (a b : FinancialCalculationEngine) :
    engineNeqOp a b = !engineEqOp a b ∧
    engineEqOp a b
      = (a.m_generalLedgerStructureList == b.m_generalLedgerStructureList) := by
  constructor
  · simp [engineNeqOp, engineEqOp, bne]
  · simp [engineEqOp]

/-- C10: the stream-insertion operator writes only the object's name, so
any two engines with equal names print identically. -/
theorem engineOstream_name_only (a b : FinancialCalculationEngine)
    (h : a.name = b.name) : engineOstream a = engineOstream b := by
  simp [engineOstream, engineGetName, h]

/-- Witness for C10: two engines with the same name but different ledger
lists, for which `operator==` returns `false`, print identically. -/
theorem engineOstream_name_only_witness :
    engineEqOp ⟨"fce", [1]⟩ ⟨"fce", [2]⟩ = false ∧
    engineOstream ⟨"fce", [1]⟩ = engineOstream ⟨"fce", [2]⟩ :=
  ⟨by decide, engineOstream_name_only ⟨"fce", [1]⟩ ⟨"fce", [2]⟩ rfl⟩

/-! ## Concrete instances used by the witnesses -/

/-- A constant-property fluid source used for concrete evaluations. -/
def constFluid : FluidPropertySource :=
  ⟨fun _ => 1, fun _ => 1, fun _ => 1, fun _ => 1, fun _ => 1⟩

/-- A sample laminar-range region: `Ra ∈ [1, 10^6]`, `θ ∈ [-90, 90]`. -/
def regionA : CorrelationRegion :=
  ⟨"laminar", 1, 1000000, -90, 90, fun Ra _ _ => Ra, fun Ra _ _ => 2 * Ra,
    1, 2⟩

/-- A sample turbulent-range region: `Ra ∈ [2·10^6, 4·10^6]`, leaving a gap
`(10^6, 2·10^6)` after `regionA`. -/
def regionB : CorrelationRegion :=
  ⟨"turbulent", 2000000, 4000000, -90, 90, fun Ra _ _ => Ra + 1,
    fun Ra _ _ => Ra + 2, 3, 4⟩

/-- Engine with extrapolation allowed and no forced region. -/
def E1 : IsothermalFlatSurface :=
  ⟨constFluid, true, none, [regionA, regionB], fun _ _ _ => 1 / 2⟩

/-- Engine with extrapolation disallowed and no forced region. -/
def E2 : IsothermalFlatSurface :=
  ⟨constFluid, false, none, [regionA, regionB], fun _ _ _ => 1 / 2⟩

/-- Engine with `forced_region = regionB` over the same table. -/
def EF : IsothermalFlatSurface :=
  ⟨constFluid, true, some regionB, [regionA, regionB], fun _ _ _ => 1 / 2⟩

theorem rayleigh_constFluid (L Ts Tf : ℚ) (h : Tf ≤ Ts) :
    rayleigh constFluid L Ts Tf = 981 / 100 * (Ts - Tf) * L ^ 3 := by
  simp only [rayleigh, g_accel, kinematicViscosity, thermalDiffusivity,
    constFluid, abs_of_nonneg (sub_nonneg.mpr h)]
  norm_num

theorem E1_rayleigh : rayleigh E1.fluid 1 400 300 = 981 := by
  show rayleigh constFluid 1 400 300 = 981
  rw [rayleigh_constFluid 1 400 300 (by norm_num)]
  norm_num

theorem E2_rayleigh : rayleigh E2.fluid 11 400 300 = 1305711 := by
  show rayleigh constFluid 11 400 300 = 1305711
  rw [rayleigh_constFluid 11 400 300 (by norm_num)]
  norm_num

theorem EF_rayleigh : rayleigh EF.fluid 1 400 300 = 981 := by
  show rayleigh constFluid 1 400 300 = 981
  rw [rayleigh_constFluid 1 400 300 (by norm_num)]
  norm_num

/-- Witness for C1 at `E1`, `L = 1`, `θ = 0`, `Ts = 400`, `Tf = 300`
(`Ra = 981`). -/
theorem nusselt_total_witness :
    (∃ v, Nu_x E1 1 0 400 300 = .ok v) ∧
    (∃ v, Nu_L E1 1 0 400 300 = .ok v) := by
  have h := nusselt_total E1 1 0 400 300 rfl rfl
    (List.cons_ne_nil regionA [regionB]) (by norm_num)
    (by rw [E1_rayleigh]; norm_num) (by norm_num) (by norm_num)
  exact ⟨h.1, h.2.1⟩

/-- Witness for C2 at `EF`: the point `(Ra, θ) = (981, 0)` lies inside
`regionA`'s declared bounds, yet the forced `regionB` correlation is the
one applied. -/
theorem forced_region_spec_witness :
    containsPoint regionA (rayleigh EF.fluid 1 400 300) 0 = true ∧
    Nu_x EF 1 0 400 300
      = .ok (evalRegion (fun r2 => r2.nu_x) (fun r2 => r2.nu0_x) regionB
          (rayleigh EF.fluid 1 400 300) (prandtl EF.fluid 300) 0, false) := by
  constructor
  · rw [EF_rayleigh]
    decide
  · exact (forced_region_spec EF regionB 1 0 400 300 rfl (by norm_num)).1

/-- Witness for C5 at `E1` with `T_surface = T_fluid = 300`. -/
theorem zero_dT_spec_witness :
    rayleigh E1.fluid 1 300 300 = 0 ∧
    ∃ r, r ∈ E1.regions ∧ Nu_x E1 1 0 300 300 = .ok (r.nu0_x, false) ∧
      Nu_L E1 1 0 300 300 = .ok (r.nu0_L, false) := by
  have h := zero_dT_spec E1 1 0 300 (by norm_num)
    (List.cons_ne_nil regionA [regionB])
  exact ⟨h.1, h.2.2 rfl⟩

theorem E2_gap_lit : containing E2.regions 1305711 0 = [] := by
  show containing [regionA, regionB] 1305711 0 = []
  have hA : containsPoint regionA 1305711 0 = false := by decide
  have hB : containsPoint regionB 1305711 0 = false := by decide
  simp [containing, hA, hB]

theorem distTo_regionA_gap : distTo regionA 1305711 0 = 305711 := by
  simp only [distTo, regionA]
  rw [max_eq_left (by norm_num : (0 : ℚ) ≤ 1305711 - 1000000),
    max_eq_right (by norm_num : (1 : ℚ) - 1305711 ≤ 1305711 - 1000000),
    max_eq_right (by norm_num : (0 : ℚ) - 90 ≤ 0),
    max_eq_right (by norm_num : (-90 : ℚ) - 0 ≤ 0)]
  norm_num

theorem distTo_regionB_gap : distTo regionB 1305711 0 = 694289 := by
  simp only [distTo, regionB]
  rw [max_eq_right (by norm_num : (1305711 : ℚ) - 4000000 ≤ 0),
    max_eq_left (by norm_num : (0 : ℚ) ≤ 2000000 - 1305711),
    max_eq_right (by norm_num : (0 : ℚ) - 90 ≤ 0),
    max_eq_right (by norm_num : (-90 : ℚ) - 0 ≤ 0)]
  norm_num

theorem E2_nearest_lit : nearest E2.regions 1305711 0 = some regionA := by
  show nearest [regionA, regionB] 1305711 0 = some regionA
  simp only [nearest]
  rw [if_pos (by rw [distTo_regionA_gap, distTo_regionB_gap]; norm_num)]

/-- Witness for C3 at `E2` (`allow_extrapolation = false`), `L = 11`,
`θ = 0`, `Ts = 400`, `Tf = 300`: `Ra = 1305711` falls in the declared gap
between `regionA` and `regionB`, and the call fails with `OutOfRangeError`
naming the point and the nearest region's (`regionA`'s) bounds. -/
theorem out_of_range_spec_witness :
    Nu_x E2 11 0 400 300
      = .error (.outOfRange (rayleigh E2.fluid 11 400 300) 0
          (boundsOf regionA)) ∧
    Nu_L E2 11 0 400 300
      = .error (.outOfRange (rayleigh E2.fluid 11 400 300) 0
          (boundsOf regionA)) := by
  obtain ⟨⟨r, hr, hmem, hx, hl⟩, _, _⟩ := out_of_range_spec E2 11 0 400 300
    rfl rfl (by norm_num) (by rw [E2_rayleigh]; norm_num)
    (List.cons_ne_nil regionA [regionB]) (by rw [E2_rayleigh]; exact E2_gap_lit)
  rw [E2_rayleigh, E2_nearest_lit] at hr
  have hreq := Option.some.inj hr
  subst hreq
  exact ⟨hx, hl⟩

theorem E1_Nu_x_val : Nu_x E1 1 0 400 300 = .ok (981, false) := by
  simp only [Nu_x, nusseltWith]
  rw [if_neg (by norm_num : ¬ (1 : ℚ) ≤ 0), E1_rayleigh]
  rfl

/-- Witness for C6 at `E1`, `L = 1`, `θ = 0`, `Ts = 400`, `Tf = 300`:
`Nu_x = 981` and `h_x = 981 · k(300) / 1`. -/
theorem coefficient_spec_witness :
    h_x E1 1 0 400 300
      = .ok (981 * E1.fluid.conductivity 300 / 1, false) :=
  (coefficient_spec E1 1 0 400 300 (by norm_num) (by norm_num)
    (by norm_num)).1 981 false E1_Nu_x_val
